import Mathlib

/-!
# Verification of the VectorVault multimodal vector store

Shallow embedding of `src/storage/simple_vector_db.py` (class `SimpleVectorDB`)
and proofs about it.

Modelling conventions:
* The SQLite table `vectors` is a `Store α`: a list of rows kept in insertion
  (rowid) order together with the next AUTOINCREMENT id.  `α` is the type of a
  vector entry; the numeric instantiation is `ℚ` (Python floats idealised as
  exact rationals for timestamps and vector entries, exact real arithmetic for
  the similarity computation), and for claims about malformed input it is
  `JsonValue`, which also has non-numeric (string) entries.
* `json.dumps` / `json.loads` are mutually inverse on the values that occur,
  so a JSON-encoded vector column is modelled by the vector itself.  The
  `metadata` column is modelled as the JSON text; SQL `NULL` and the empty
  string are both falsy in Python, so `json.loads(row[5]) if row[5] else {}`
  is modelled as mapping `""` to `"{}"` (the dump of `{}`) and any other text
  to itself.
* `ORDER BY timestamp` is modelled as SQLite executes it here: a scan of the
  `idx_timestamp` B-tree, whose entries are ordered by `(timestamp, rowid)`.
  Since the row list is kept in rowid order, this equals a stable sort by
  timestamp, realised as `List.insertionSort` with the lexicographic
  relation `rowLe`.
* Python floats `start_time`/`end_time` may be `float('inf')`; the end bound
  is therefore a `WithTop ℚ` with `⊤` standing for `+infinity`.
* Python's `list.sort(key=..., reverse=True)` is a stable descending sort
  (documented behaviour of Timsort); it is realised as `List.insertionSort`
  with the relation `simGE`, which is stable in the same sense, as the
  filter characterisation proved below makes precise.
-/

namespace VectorVault

/-- One row of the `vectors` table (`create_tables`): `id` is the
AUTOINCREMENT primary key; `vector_data` holds the JSON-decoded vector;
`metadata` holds the JSON metadata text (`""` modelling SQL `NULL`/empty).
The informational `created_at` column is not used by any operation and is
omitted. -/
structure Row (α : Type) where
  id : Nat
  source_type : String
  source_file : String
  timestamp : ℚ
  vector_data : List α
  metadata : String
deriving DecidableEq

/-- The database state: rows in insertion (rowid) order plus the next
AUTOINCREMENT id (SQLite starts at 1). -/
structure Store (α : Type) where
  rows : List (Row α)
  nextId : Nat
deriving DecidableEq

/-- A freshly initialised database: no rows, next rowid 1. -/
def emptyStore {α : Type} : Store α := ⟨[], 1⟩

/-- `cursor.execute('INSERT INTO vectors ...')`: appends a row with the next
AUTOINCREMENT id. -/
def insertRow {α : Type} (db : Store α) (source_type source_file : String)
    (timestamp : ℚ) (vector_data : List α) (metadata : String) : Store α :=
  ⟨db.rows ++ [⟨db.nextId, source_type, source_file, timestamp, vector_data, metadata⟩],
   db.nextId + 1⟩

/-- One element of the `vectors: List[Dict]` argument of the `store_*`
methods: keys `timestamp`, `dense_vector`, `features` (the latter as JSON
text after `json.dumps`). -/
structure InputRecord (α : Type) where
  timestamp : ℚ
  dense_vector : List α
  features : String
deriving DecidableEq

/-- `store_audio_vectors`: inserts every record with source type `'audio'`,
then commits. -/
def storeAudioVectors {α : Type} (db : Store α) (vectors : List (InputRecord α))
    (source_file : String) : Store α :=
  vectors.foldl (fun d v => insertRow d "audio" source_file v.timestamp v.dense_vector v.features) db

/-- `store_visual_vectors`: inserts every record with source type `'visual'`. -/
def storeVisualVectors {α : Type} (db : Store α) (vectors : List (InputRecord α))
    (source_file : String) : Store α :=
  vectors.foldl (fun d v => insertRow d "visual" source_file v.timestamp v.dense_vector v.features) db

/-- `store_semantic_vectors`: inserts every record with source type
`'semantic'`. -/
def storeSemanticVectors {α : Type} (db : Store α) (vectors : List (InputRecord α))
    (source_file : String) : Store α :=
  vectors.foldl (fun d v => insertRow d "semantic" source_file v.timestamp v.dense_vector v.features) db

/-- Python truthiness of the `Optional[str]` argument `source_type`:
`None` and `""` are falsy (`if source_type:` in `query_by_timerange`). -/
def truthyStr : Option String → Bool
  | none => false
  | some s => s != ""

/-- The order in which the `idx_timestamp` index scan yields rows:
by timestamp, ties by rowid. -/
def rowLe {α : Type} (a b : Row α) : Prop :=
  a.timestamp < b.timestamp ∨ (a.timestamp = b.timestamp ∧ a.id ≤ b.id)

instance {α : Type} : DecidableRel (@rowLe α) := fun a b => by
  unfold rowLe; exact inferInstance

instance {α : Type} : IsTotal (Row α) rowLe where
  total a b := by
    rcases lt_trichotomy a.timestamp b.timestamp with h | h | h
    · exact Or.inl (Or.inl h)
    · rcases Nat.le_total a.id b.id with h2 | h2
      · exact Or.inl (Or.inr ⟨h, h2⟩)
      · exact Or.inr (Or.inr ⟨h.symm, h2⟩)
    · exact Or.inr (Or.inl h)

instance {α : Type} : IsTrans (Row α) rowLe where
  trans a b c hab hbc := by
    rcases hab with h1 | ⟨h1, h1i⟩ <;> rcases hbc with h2 | ⟨h2, h2i⟩
    · exact Or.inl (h1.trans h2)
    · exact Or.inl (h2 ▸ h1)
    · exact Or.inl (h1 ▸ h2)
    · exact Or.inr ⟨h1.trans h2, h1i.trans h2i⟩

/-- One element of the list returned by `query_by_timerange`: the selected
columns, with `vector_data` JSON-decoded into `vector` and metadata decoded
(`json.loads(row[5]) if row[5] else {}`). -/
structure QueryResult (α : Type) where
  id : Nat
  source_type : String
  source_file : String
  timestamp : ℚ
  vector : List α
  metadata : String
deriving DecidableEq

/-- The result-dict construction in `query_by_timerange`'s fetch loop. -/
def toQueryResult {α : Type} (r : Row α) : QueryResult α :=
  ⟨r.id, r.source_type, r.source_file, r.timestamp, r.vector_data,
   if r.metadata = "" then "{}" else r.metadata⟩

/-- `query_by_timerange(start_time, end_time, source_type)`:
`WHERE timestamp >= ? AND timestamp <= ?` (plus `AND source_type = ?` when
`source_type` is truthy), `ORDER BY timestamp` via the `idx_timestamp`
index scan (timestamp then rowid). -/
def queryByTimerange {α : Type} (db : Store α) (start_time : ℚ) (end_time : WithTop ℚ)
    (source_type : Option String) : List (QueryResult α) :=
  let selected :=
    if truthyStr source_type then
      db.rows.filter (fun r =>
        decide (start_time ≤ r.timestamp ∧ (r.timestamp : WithTop ℚ) ≤ end_time ∧
          r.source_type = source_type.getD ""))
    else
      db.rows.filter (fun r =>
        decide (start_time ≤ r.timestamp ∧ (r.timestamp : WithTop ℚ) ≤ end_time))
  (List.insertionSort rowLe selected).map toQueryResult

/-- Whether a row passes the optional source-type filter of
`query_by_timerange` (no condition when the argument is falsy). -/
def sourceMatches {α : Type} (source_type : Option String) (r : Row α) : Prop :=
  truthyStr source_type = true → r.source_type = source_type.getD ""

/-- Store invariant: rows are kept in strictly increasing rowid order, as
produced by AUTOINCREMENT insertion. -/
def Store.Wf {α : Type} (db : Store α) : Prop :=
  List.Pairwise (fun a b : Row α => a.id < b.id) db.rows

instance {α : Type} : DecidableRel (fun a b : Row α => a.id < b.id) :=
  fun a b => Nat.decLt a.id b.id

instance {α : Type} (db : Store α) : Decidable (Store.Wf db) :=
  List.instDecidablePairwise db.rows

/-- Tie-breaking order claimed for equal timestamps in query results. -/
def tieById {α : Type} (a b : QueryResult α) : Prop :=
  a.timestamp = b.timestamp → a.id < b.id

/-- The rows one `store_*` call appends when the next AUTOINCREMENT id is
`n`: one row per input record, ids consecutive. -/
def builtRows {α : Type} (n : Nat) (source_type source_file : String) :
    List (InputRecord α) → List (Row α)
  | [] => []
  | v :: vs =>
    ⟨n, source_type, source_file, v.timestamp, v.dense_vector, v.features⟩ ::
      builtRows (n + 1) source_type source_file vs

/-- The `(timestamp, vector, metadata)` view of a query result. -/
def resultProj {α : Type} (x : QueryResult α) : ℚ × List α × String :=
  (x.timestamp, x.vector, x.metadata)

/-- The `(timestamp, dense_vector, features)` view of an input record. -/
def inputProj {α : Type} (v : InputRecord α) : ℚ × List α × String :=
  (v.timestamp, v.dense_vector, v.features)

/-- Timestamp order on query results. -/
def tsLe {α : Type} (a b : QueryResult α) : Prop := a.timestamp ≤ b.timestamp

/-- The per-source-type entry of `get_conversation_summary`'s `sources`
dict. -/
structure SourceStats where
  count : Nat
  min_timestamp : ℚ
  max_timestamp : ℚ
  duration : ℚ
deriving DecidableEq

/-- The dict returned by `get_conversation_summary` (`sources` as an
association list in group order). -/
structure Summary where
  total_vectors : Nat
  duration : ℚ
  sources : List (String × SourceStats)
deriving DecidableEq

/-- SQL `MIN(timestamp)` over a group (groups are never empty; the `[]` case
is an unused default). -/
def minTimestamp {α : Type} : List (Row α) → ℚ
  | [] => 0
  | r :: rs => rs.foldl (fun m x => min m x.timestamp) r.timestamp

/-- SQL `MAX(timestamp)` over a group (groups are never empty; the `[]` case
is an unused default). -/
def maxTimestamp {α : Type} : List (Row α) → ℚ
  | [] => 0
  | r :: rs => rs.foldl (fun m x => max m x.timestamp) r.timestamp

/-- `get_conversation_summary`: `GROUP BY source_type` (modelled as one group
per distinct tag), per group `COUNT(*), MIN(timestamp), MAX(timestamp)`, and
the Python accumulation loop.  Python truthiness is kept exactly:
`max_time - min_time if max_time and min_time else 0` yields `0` whenever
either value equals `0.0`, and `max_time if max_time else 0` maps `0.0` to
`0`. -/
def getConversationSummary {α : Type} (db : Store α) : Summary :=
  let groups := (db.rows.map Row.source_type).dedup
  groups.foldl
    (fun s g =>
      let rs := db.rows.filter (fun r => r.source_type == g)
      let cnt := rs.length
      let min_time := minTimestamp rs
      let max_time := maxTimestamp rs
      ⟨s.total_vectors + cnt,
       max s.duration (if max_time = 0 then 0 else max_time),
       s.sources ++ [(g, ⟨cnt, min_time, max_time,
         if max_time = 0 ∨ min_time = 0 then 0 else max_time - min_time⟩)]⟩)
    ⟨0, 0, []⟩

/-- `sum(a * b for a, b in zip(vec1, vec2))`. -/
def dotProduct (vec1 vec2 : List ℚ) : ℚ :=
  ((vec1.zip vec2).map (fun p => p.1 * p.2)).sum

/-- `sum(a * a for a in vec)` (the square of a magnitude). -/
def sumSquares (vec : List ℚ) : ℚ :=
  (vec.map (fun a => a * a)).sum

open Classical in
/-- `cosine_similarity(vec1, vec2)`: returns `0.0` on length mismatch,
computes `dot / (sqrt(Σa²) * sqrt(Σb²))`, returning `0.0` when either
magnitude is zero.  `math.sqrt` and float division are idealised as exact
real arithmetic. -/
noncomputable def cosineSimilarity (vec1 vec2 : List ℚ) : ℝ :=
  if vec1.length ≠ vec2.length then 0
  else
    let dot_product := dotProduct vec1 vec2
    let magnitude1 : ℝ := Real.sqrt ((sumSquares vec1 : ℚ) : ℝ)
    let magnitude2 : ℝ := Real.sqrt ((sumSquares vec2 : ℚ) : ℝ)
    if magnitude1 = 0 ∨ magnitude2 = 0 then 0
    else (dot_product : ℝ) / (magnitude1 * magnitude2)

/-- One element of the list built by `find_similar_moments`:
`{'timestamp': ..., 'similarity': ..., 'metadata': ...}`. -/
structure SimilarMoment where
  timestamp : ℚ
  similarity : ℝ
  metadata : String

/-- Descending-similarity order:
`similarities.sort(key=lambda x: x['similarity'], reverse=True)`. -/
def simGE (a b : SimilarMoment) : Prop := b.similarity ≤ a.similarity

noncomputable instance : DecidableRel simGE := fun _ _ => Classical.dec _

instance : IsTotal SimilarMoment simGE where
  total a b := le_total b.similarity a.similarity

instance : IsTrans SimilarMoment simGE where
  trans _ _ _ hab hbc := le_trans hbc hab

/-- The error taxonomy of the specification (§7).  The Python source defines
no error types of its own; a raised Python exception would surface as an
`Except.error` of this type. -/
inductive VVError where
  | storageUnavailable
  | noReferenceVector
  | malformedInput
deriving DecidableEq

/-- The candidate-building loop of `find_similar_moments`: scan all vectors
(query `[0, +infinity)`), skip those with `|timestamp - target| < window`,
attach the cosine similarity to the reference vector. -/
noncomputable def rawSimilarities (db : Store ℚ) (target_timestamp window_size : ℚ)
    (source_type : Option String) (target_vector : List ℚ) : List SimilarMoment :=
  (queryByTimerange db 0 ⊤ source_type).filterMap (fun v =>
    if |v.timestamp - target_timestamp| < window_size then none
    else some ⟨v.timestamp, cosineSimilarity target_vector v.vector, v.metadata⟩)

/-- `similarities.sort(key=lambda x: x['similarity'], reverse=True)`:
a stable descending sort. -/
noncomputable def sortSimilarities (l : List SimilarMoment) : List SimilarMoment :=
  List.insertionSort simGE l

/-- `find_similar_moments(target_timestamp, window_size, source_type)`:
resolve the reference as the first record of
`query_by_timerange(target - 5, target + 5, source_type)` — returning the
empty list when there is none — then rank all candidates and keep the top
10.  Every path returns normally (`Except.ok`); no error is ever raised. -/
noncomputable def findSimilarMoments (db : Store ℚ) (target_timestamp window_size : ℚ)
    (source_type : Option String) : Except VVError (List SimilarMoment) :=
  match queryByTimerange db (target_timestamp - 5)
      ((target_timestamp + 5 : ℚ) : WithTop ℚ) source_type with
  | [] => Except.ok []
  | tv :: _ =>
    Except.ok ((sortSimilarities
      (rawSimilarities db target_timestamp window_size source_type tv.vector)).take 10)

/-- A JSON-serialisable Python value that can occur as a vector entry: the
store never validates entries, so non-numeric (string) entries pass through
`json.dumps` unharmed.  Only the fragment needed here is modelled. -/
inductive JsonValue where
  | num (q : ℚ)
  | str (s : String)
deriving DecidableEq

/-! ## Theorems -/

theorem timestamp_toQueryResult {α : Type} (r : Row α) :
    (toQueryResult r).timestamp = r.timestamp := rfl

theorem id_toQueryResult {α : Type} (r : Row α) : (toQueryResult r).id = r.id := rfl

/-- C10: `query_by_timerange` with `source_type = ""` behaves exactly as with
no filter at all, because `""` is falsy in `if source_type:`. -/
theorem query_empty_source_type_is_unfiltered {α : Type} (db : Store α)
    (start_time : ℚ) (end_time : WithTop ℚ) :
    queryByTimerange db start_time end_time (some "") =
      queryByTimerange db start_time end_time none := rfl

/-- Membership characterisation of `query_by_timerange` results. -/
theorem mem_queryByTimerange {α : Type} {db : Store α} {s : ℚ} {e : WithTop ℚ}
    {st : Option String} {x : QueryResult α} :
    x ∈ queryByTimerange db s e st ↔
      ∃ r ∈ db.rows, (s ≤ r.timestamp ∧ (r.timestamp : WithTop ℚ) ≤ e) ∧
        sourceMatches st r ∧ x = toQueryResult r := by
  unfold queryByTimerange
  by_cases h : truthyStr st = true
  · rw [if_pos h]
    simp only [List.mem_map, List.mem_insertionSort, List.mem_filter, decide_eq_true_eq]
    constructor
    · rintro ⟨r, ⟨hr, h1, h2, h3⟩, rfl⟩
      exact ⟨r, hr, ⟨h1, h2⟩, fun _ => h3, rfl⟩
    · rintro ⟨r, hr, ⟨h1, h2⟩, h3, rfl⟩
      exact ⟨r, ⟨hr, h1, h2, h3 h⟩, rfl⟩
  · rw [if_neg h]
    simp only [List.mem_map, List.mem_insertionSort, List.mem_filter, decide_eq_true_eq]
    constructor
    · rintro ⟨r, ⟨hr, h1, h2⟩, rfl⟩
      exact ⟨r, hr, ⟨h1, h2⟩, fun hc => absurd hc h, rfl⟩
    · rintro ⟨r, hr, ⟨h1, h2⟩, _, rfl⟩
      exact ⟨r, ⟨hr, h1, h2⟩, rfl⟩

/-- C3: range correctness of `query_by_timerange`. Every returned record has
`start_time ≤ timestamp ≤ end_time` (inclusive); no stored record inside the
range and matching the optional source-type filter is omitted; and an empty
range (`end_time < start_time`) yields the empty list, not an error. -/
theorem query_range_correct {α : Type} (db : Store α) (s : ℚ) (e : WithTop ℚ)
    (st : Option String) :
    (∀ x ∈ queryByTimerange db s e st, s ≤ x.timestamp ∧ (x.timestamp : WithTop ℚ) ≤ e) ∧
    (∀ r ∈ db.rows, s ≤ r.timestamp → (r.timestamp : WithTop ℚ) ≤ e →
      sourceMatches st r → toQueryResult r ∈ queryByTimerange db s e st) ∧
    (e < (s : WithTop ℚ) → queryByTimerange db s e st = []) := by
  refine ⟨?_, ?_, ?_⟩
  · intro x hx
    rcases mem_queryByTimerange.mp hx with ⟨r, _, ⟨h1, h2⟩, _, rfl⟩
    exact ⟨h1, h2⟩
  · intro r hr h1 h2 h3
    exact mem_queryByTimerange.mpr ⟨r, hr, ⟨h1, h2⟩, h3, rfl⟩
  · intro hlt
    have hempty : ∀ (p : Row α → Prop) (hp : DecidablePred p),
        (∀ r, p r → s ≤ r.timestamp ∧ (r.timestamp : WithTop ℚ) ≤ e) →
        db.rows.filter (fun r => decide (p r)) = [] := by
      intro p hp hsub
      refine List.filter_eq_nil_iff.mpr (fun r _ hpr => ?_)
      rcases hsub r (of_decide_eq_true hpr) with ⟨h1, h2⟩
      have : (s : WithTop ℚ) ≤ e :=
        le_trans (by exact_mod_cast h1) h2
      exact absurd this (not_le_of_lt hlt)
    unfold queryByTimerange
    by_cases h : truthyStr st = true
    · rw [if_pos h, hempty _ _ (fun r hp => ⟨hp.1, hp.2.1⟩)]
      rfl
    · rw [if_neg h, hempty _ _ (fun r hp => ⟨hp.1, hp.2⟩)]
      rfl

/-- C3 witness: an inverted range on a concrete store is empty. -/
theorem query_range_correct_witness :
    queryByTimerange (emptyStore : Store ℚ) 5 ((3 : ℚ) : WithTop ℚ) none = [] :=
  (query_range_correct emptyStore 5 ((3 : ℚ) : WithTop ℚ) none).2.2
    (by exact_mod_cast (by norm_num : (3 : ℚ) < 5))

/-- C7: in a `query_by_timerange` result, records with equal timestamps
appear in ascending `id` (insertion) order: the `idx_timestamp` scan is
ordered by `(timestamp, rowid)`, so the result is deterministic. -/
theorem query_ties_ordered_by_id {α : Type} (db : Store α) (s : ℚ) (e : WithTop ℚ)
    (st : Option String) (hwf : Store.Wf db) :
    List.Pairwise tieById (queryByTimerange db s e st) := by
  unfold queryByTimerange
  set selected :=
    if truthyStr st then
      db.rows.filter (fun r =>
        decide (s ≤ r.timestamp ∧ (r.timestamp : WithTop ℚ) ≤ e ∧
          r.source_type = st.getD ""))
    else
      db.rows.filter (fun r =>
        decide (s ≤ r.timestamp ∧ (r.timestamp : WithTop ℚ) ≤ e)) with hsel
  have hsub : selected.Sublist db.rows := by
    rw [hsel]
    by_cases h : truthyStr st = true
    · rw [if_pos h]; exact List.filter_sublist _
    · rw [if_neg h]; exact List.filter_sublist _
  have hids : List.Pairwise (fun a b : Row α => a.id < b.id) selected :=
    hwf.sublist hsub
  have hsorted : List.Sorted rowLe (List.insertionSort rowLe selected) :=
    List.sorted_insertionSort rowLe selected
  have hperm : List.Perm (List.insertionSort rowLe selected) selected :=
    List.perm_insertionSort rowLe selected
  have hnodup : (selected.map Row.id).Nodup :=
    List.pairwise_map.mpr (hids.imp fun h => Nat.ne_of_lt h)
  have hnodup2 : ((List.insertionSort rowLe selected).map Row.id).Nodup :=
    ((hperm.map Row.id).nodup_iff).mpr hnodup
  have hne : List.Pairwise (fun a b : Row α => a.id ≠ b.id)
      (List.insertionSort rowLe selected) := List.pairwise_map.mp hnodup2
  have hcomb : List.Pairwise (fun a b : Row α => rowLe a b ∧ a.id ≠ b.id)
      (List.insertionSort rowLe selected) :=
    hsorted.imp₂ (fun _ _ h1 h2 => ⟨h1, h2⟩) hne
  refine List.pairwise_map.mpr (hcomb.imp ?_)
  rintro a b ⟨hle, hne2⟩ hts
  have hts' : a.timestamp = b.timestamp := hts
  rcases hle with h | ⟨_, hid⟩
  · exact absurd hts' (ne_of_lt h)
  · exact lt_of_le_of_ne hid hne2

/-- C7 witness: a concrete store with two records at the same timestamp. -/
theorem query_ties_ordered_by_id_witness :
    List.Pairwise tieById
      (queryByTimerange (storeAudioVectors (emptyStore : Store ℚ)
        [⟨10, [1], "m"⟩, ⟨10, [2], "m"⟩] "f.wav") 0 ⊤ none) :=
  query_ties_ordered_by_id
    (storeAudioVectors (emptyStore : Store ℚ) [⟨10, [1], "m"⟩, ⟨10, [2], "m"⟩] "f.wav")
    0 ⊤ none (by decide)

theorem length_builtRows {α : Type} (n : Nat) (tag sf : String)
    (vs : List (InputRecord α)) : (builtRows n tag sf vs).length = vs.length := by
  induction vs generalizing n with
  | nil => rfl
  | cons v vs ih => simp [builtRows, ih]

theorem map_id_builtRows {α : Type} (n : Nat) (tag sf : String)
    (vs : List (InputRecord α)) :
    (builtRows n tag sf vs).map Row.id = List.range' n vs.length := by
  induction vs generalizing n with
  | nil => rfl
  | cons v vs ih => simp [builtRows, ih, List.range']

/-- The insertion loop shared by the three `store_*` methods. -/
theorem foldl_insertRow {α : Type} (tag sf : String) (vs : List (InputRecord α))
    (db : Store α) :
    vs.foldl (fun d v => insertRow d tag sf v.timestamp v.dense_vector v.features) db =
      ⟨db.rows ++ builtRows db.nextId tag sf vs, db.nextId + vs.length⟩ := by
  induction vs generalizing db with
  | nil => cases db; simp [builtRows]
  | cons v vs ih =>
    rw [List.foldl_cons, ih]
    simp only [insertRow, builtRows, List.length_cons]
    congr 1
    · simp
    · omega

theorem builtRows_timestamp_nonneg {α : Type} {n : Nat} {tag sf : String}
    {vs : List (InputRecord α)} (h : ∀ v ∈ vs, 0 ≤ v.timestamp) :
    ∀ r ∈ builtRows n tag sf vs, 0 ≤ r.timestamp := by
  induction vs generalizing n with
  | nil => intro r hr; cases hr
  | cons v vs ih =>
    intro r hr
    rcases hr with _ | hr
    · exact h v (List.mem_cons_self v vs)
    · exact ih (fun w hw => h w (List.mem_cons_of_mem v hw)) r (by assumption)

theorem map_proj_builtRows {α : Type} {n : Nat} {tag sf : String}
    {vs : List (InputRecord α)} (h : ∀ v ∈ vs, v.features ≠ "") :
    (builtRows n tag sf vs).map (fun r => resultProj (toQueryResult r)) =
      vs.map inputProj := by
  induction vs generalizing n with
  | nil => rfl
  | cons v vs ih =>
    have hv : v.features ≠ "" := h v (List.mem_cons_self v vs)
    simp only [builtRows, List.map_cons, ih (fun w hw => h w (List.mem_cons_of_mem v hw))]
    simp [resultProj, toQueryResult, inputProj, if_neg hv]

/-- Round-trip core: querying `[0, +infinity)` after one batch insertion into
an empty store returns exactly the batch contents, freshly numbered and
sorted by timestamp. -/
theorem roundTrip_of_rows (tag sf : String) {vs : List (InputRecord ℚ)} {db : Store ℚ}
    (hdb : db.rows = builtRows 1 tag sf vs)
    (h : ∀ v ∈ vs, 0 ≤ v.timestamp ∧ v.features ≠ "") :
    (queryByTimerange db 0 ⊤ none).length = vs.length ∧
    List.Perm ((queryByTimerange db 0 ⊤ none).map resultProj) (vs.map inputProj) ∧
    List.Sorted tsLe (queryByTimerange db 0 ⊤ none) ∧
    List.Perm ((queryByTimerange db 0 ⊤ none).map QueryResult.id)
      (List.range' 1 vs.length) := by
  have hfilter :
      db.rows.filter (fun r =>
        decide ((0 : ℚ) ≤ r.timestamp ∧ (r.timestamp : WithTop ℚ) ≤ ⊤)) = db.rows := by
    refine List.filter_eq_self.mpr (fun r hr => decide_eq_true ?_)
    refine ⟨?_, le_top⟩
    exact builtRows_timestamp_nonneg (fun v hv => (h v hv).1) r (hdb ▸ hr)
  have hq : queryByTimerange db 0 ⊤ none =
      (List.insertionSort rowLe db.rows).map toQueryResult := by
    unfold queryByTimerange
    rw [if_neg (by simp [truthyStr]), hfilter]
  have hperm : List.Perm (List.insertionSort rowLe db.rows) db.rows :=
    List.perm_insertionSort rowLe db.rows
  refine ⟨?_, ?_, ?_, ?_⟩
  · rw [hq, List.length_map, List.length_insertionSort, hdb, length_builtRows]
  · rw [hq, List.map_map]
    refine List.Perm.trans (hperm.map _) ?_
    rw [hdb]
    exact List.Perm.of_eq (map_proj_builtRows (fun v hv => (h v hv).2))
  · rw [hq]
    refine List.pairwise_map.mpr ((List.sorted_insertionSort rowLe db.rows).imp ?_)
    intro a b hab
    rcases hab with hlt | ⟨heq, _⟩
    · exact le_of_lt hlt
    · exact le_of_eq heq
  · rw [hq, List.map_map]
    have hcomp : QueryResult.id ∘ (toQueryResult : Row ℚ → QueryResult ℚ) = Row.id := rfl
    rw [hcomp]
    refine List.Perm.trans (hperm.map _) ?_
    rw [hdb, map_id_builtRows]

/-- C2: round-trip. Storing a batch of `N` valid records (non-negative
timestamps, non-empty metadata text) through any of `store_audio_vectors`,
`store_visual_vectors`, `store_semantic_vectors` into an empty store and then
calling `query_by_timerange(0, +infinity)` returns exactly `N` records whose
`(timestamp, vector, metadata)` equal the submitted inputs (as a multiset),
with freshly assigned ids `1..N`, ordered by ascending timestamp. -/
theorem store_query_roundTrip (vectors : List (InputRecord ℚ)) (sf : String)
    (h : ∀ v ∈ vectors, 0 ≤ v.timestamp ∧ v.features ≠ "") :
    ((queryByTimerange (storeAudioVectors emptyStore vectors sf) 0 ⊤ none).length =
        vectors.length ∧
      List.Perm ((queryByTimerange (storeAudioVectors emptyStore vectors sf) 0 ⊤ none).map
        resultProj) (vectors.map inputProj) ∧
      List.Sorted tsLe (queryByTimerange (storeAudioVectors emptyStore vectors sf) 0 ⊤ none) ∧
      List.Perm ((queryByTimerange (storeAudioVectors emptyStore vectors sf) 0 ⊤ none).map
        QueryResult.id) (List.range' 1 vectors.length)) ∧
    ((queryByTimerange (storeVisualVectors emptyStore vectors sf) 0 ⊤ none).length =
        vectors.length ∧
      List.Perm ((queryByTimerange (storeVisualVectors emptyStore vectors sf) 0 ⊤ none).map
        resultProj) (vectors.map inputProj) ∧
      List.Sorted tsLe (queryByTimerange (storeVisualVectors emptyStore vectors sf) 0 ⊤ none) ∧
      List.Perm ((queryByTimerange (storeVisualVectors emptyStore vectors sf) 0 ⊤ none).map
        QueryResult.id) (List.range' 1 vectors.length)) ∧
    ((queryByTimerange (storeSemanticVectors emptyStore vectors sf) 0 ⊤ none).length =
        vectors.length ∧
      List.Perm ((queryByTimerange (storeSemanticVectors emptyStore vectors sf) 0 ⊤ none).map
        resultProj) (vectors.map inputProj) ∧
      List.Sorted tsLe (queryByTimerange (storeSemanticVectors emptyStore vectors sf) 0 ⊤ none) ∧
      List.Perm ((queryByTimerange (storeSemanticVectors emptyStore vectors sf) 0 ⊤ none).map
        QueryResult.id) (List.range' 1 vectors.length)) := by
  refine ⟨roundTrip_of_rows "audio" sf ?_ h, roundTrip_of_rows "visual" sf ?_ h,
    roundTrip_of_rows "semantic" sf ?_ h⟩
  · rw [storeAudioVectors, foldl_insertRow]; rfl
  · rw [storeVisualVectors, foldl_insertRow]; rfl
  · rw [storeSemanticVectors, foldl_insertRow]; rfl

/-- C2 witness: a concrete valid two-record batch round-trips. -/
theorem store_query_roundTrip_witness :
    (queryByTimerange (storeAudioVectors emptyStore
      ([⟨10, [1, 0], "a"⟩, ⟨5, [2], "b"⟩] : List (InputRecord ℚ)) "f.wav") 0 ⊤ none).length =
      2 :=
  (store_query_roundTrip ([⟨10, [1, 0], "a"⟩, ⟨5, [2], "b"⟩] : List (InputRecord ℚ))
    "f.wav" (by decide)).1.1

/-- C6: evaluation of `get_conversation_summary` at the failing input.  Two
audio records at timestamps `0` and `100` (both valid: finite, non-negative)
yield a per-type `duration` of `0`, not `max - min = 100`: the Python guard
`if max_time and min_time` treats the minimum timestamp `0.0` as falsy.  The
overall duration and counts are as claimed. -/
theorem summary_zero_min_duration_bug :
    getConversationSummary (storeAudioVectors (emptyStore : Store ℚ)
        [⟨0, [1], "m"⟩, ⟨100, [1], "m"⟩] "conversation_audio.wav") =
      ⟨2, 100, [("audio", ⟨2, 0, 100, 0⟩)]⟩ := by decide

/-- C1 counterexample: on an empty store (so no record lies within ±5 seconds
of the target) `find_similar_moments` returns the empty list as a normal
result (`Except.ok []`); it does not fail with a `NoReferenceVector` (or any)
error. -/
theorem find_similar_no_reference_counterexample :
    (emptyStore : Store ℚ).rows = [] ∧
      findSimilarMoments emptyStore 100 30 none = Except.ok [] :=
  ⟨rfl, rfl⟩

/-- C1 (amended): if no stored record matching the filter has a timestamp in
`[target - 5, target + 5]`, then `find_similar_moments` returns the empty
list as a normal result rather than failing with an error. -/
theorem find_similar_no_reference_returns_empty (db : Store ℚ)
    (target_timestamp window_size : ℚ) (st : Option String)
    (h : ∀ r ∈ db.rows, sourceMatches st r →
      ¬(target_timestamp - 5 ≤ r.timestamp ∧ r.timestamp ≤ target_timestamp + 5)) :
    findSimilarMoments db target_timestamp window_size st = Except.ok [] := by
  have hq : queryByTimerange db (target_timestamp - 5)
      ((target_timestamp + 5 : ℚ) : WithTop ℚ) st = [] := by
    cases hcase : queryByTimerange db (target_timestamp - 5)
        ((target_timestamp + 5 : ℚ) : WithTop ℚ) st with
    | nil => rfl
    | cons x xs =>
      exfalso
      have hx : x ∈ queryByTimerange db (target_timestamp - 5)
          ((target_timestamp + 5 : ℚ) : WithTop ℚ) st := by
        rw [hcase]; exact List.mem_cons_self x xs
      rcases mem_queryByTimerange.mp hx with ⟨r, hr, ⟨h1, h2⟩, hm, _⟩
      exact h r hr hm ⟨h1, by exact_mod_cast h2⟩
  unfold findSimilarMoments
  rw [hq]

/-- C1 witness for the amended statement: concrete empty store. -/
theorem find_similar_no_reference_witness :
    findSimilarMoments (emptyStore : Store ℚ) 50 30 none = Except.ok [] :=
  find_similar_no_reference_returns_empty emptyStore 50 30 none
    (by intro r hr; cases hr)

/-- C8 counterexample: a batch whose single record carries a non-numeric
(string) vector entry is not rejected: `store_audio_vectors` stores it and
the store's contents change.  No validation happens and no `MalformedInput`
error exists in the code: strings are JSON-serialisable, so `json.dumps`
succeeds and the `INSERT` proceeds. -/
theorem malformed_batch_stored_counterexample :
    (storeAudioVectors (emptyStore : Store JsonValue)
        [⟨1, [JsonValue.str "not a number"], "m"⟩] "f.wav").rows =
      [⟨1, "audio", "f.wav", 1, [JsonValue.str "not a number"], "m"⟩] ∧
    (storeAudioVectors (emptyStore : Store JsonValue)
        [⟨1, [JsonValue.str "not a number"], "m"⟩] "f.wav").rows ≠
      (emptyStore : Store JsonValue).rows := by
  refine ⟨rfl, ?_⟩
  intro hcontra
  exact List.cons_ne_nil _ _ hcontra

/-- C8 (amended): `store_audio_vectors` performs no shape validation: every
batch — including one containing records with non-numeric (string) vector
entries — is inserted in full with no `MalformedInput` error; the previous
contents are preserved as a prefix and the store grows by the batch
length. -/
theorem store_batch_no_validation_appends (db : Store JsonValue)
    (vectors : List (InputRecord JsonValue)) (sf : String) :
    (storeAudioVectors db vectors sf).rows.length = db.rows.length + vectors.length ∧
    (storeAudioVectors db vectors sf).rows.take db.rows.length = db.rows := by
  rw [storeAudioVectors, foldl_insertRow]
  constructor
  · simp [length_builtRows]
  · simp [List.take_left]

theorem sumSquares_cons (a : ℚ) (t : List ℚ) :
    sumSquares (a :: t) = a * a + sumSquares t := by
  simp [sumSquares]

theorem dotProduct_cons (a b : ℚ) (t1 t2 : List ℚ) :
    dotProduct (a :: t1) (b :: t2) = a * b + dotProduct t1 t2 := by
  simp [dotProduct]

theorem dotProduct_self (v : List ℚ) : dotProduct v v = sumSquares v := by
  induction v with
  | nil => rfl
  | cons a t ih => rw [dotProduct_cons, sumSquares_cons, ih]

theorem sumSquares_nonneg (v : List ℚ) : 0 ≤ sumSquares v := by
  induction v with
  | nil => exact le_refl 0
  | cons a t ih =>
    rw [sumSquares_cons]
    have := mul_self_nonneg a
    linarith

/-- Cauchy–Schwarz for the zip-based dot product, over `ℚ`. -/
theorem dotProduct_sq_le (v1 v2 : List ℚ) :
    dotProduct v1 v2 ^ 2 ≤ sumSquares v1 * sumSquares v2 := by
  induction v1 generalizing v2 with
  | nil => simp [dotProduct, sumSquares]
  | cons a t1 ih =>
    cases v2 with
    | nil => simp [dotProduct, sumSquares]
    | cons b t2 =>
      have h1 := sumSquares_nonneg t1
      have h2 := sumSquares_nonneg t2
      have ihh := ih t2
      rw [dotProduct_cons, sumSquares_cons, sumSquares_cons]
      rcases eq_or_lt_of_le h1 with heq | hlt
      · have hd : dotProduct t1 t2 = 0 := by
          nlinarith [sq_nonneg (dotProduct t1 t2)]
        rw [hd, ← heq]
        nlinarith [mul_nonneg (mul_self_nonneg a) h2, sq_nonneg (a * b)]
      · nlinarith [sq_nonneg (a * dotProduct t1 t2 - b * sumSquares t1),
          mul_nonneg (sq_nonneg a) (sub_nonneg.mpr ihh),
          mul_nonneg (le_of_lt hlt) (sub_nonneg.mpr ihh), ihh, h2]

/-- C5: `cosine_similarity` returns `0.0` when the vectors have different
lengths, and returns `0.0` when either vector has zero magnitude (sum of
squares zero); neither case raises an error — the function returns a value
on every path. -/
theorem cosine_zero_on_mismatch_or_zero_magnitude :
    (∀ vec1 vec2 : List ℚ, vec1.length ≠ vec2.length → cosineSimilarity vec1 vec2 = 0) ∧
    (∀ vec1 vec2 : List ℚ, sumSquares vec1 = 0 ∨ sumSquares vec2 = 0 →
      cosineSimilarity vec1 vec2 = 0) := by
  constructor
  · intro v1 v2 h
    unfold cosineSimilarity
    rw [if_pos h]
  · intro v1 v2 h
    unfold cosineSimilarity
    by_cases hlen : v1.length ≠ v2.length
    · rw [if_pos hlen]
    · rw [if_neg hlen]
      dsimp only
      have hzero : Real.sqrt ((sumSquares v1 : ℚ) : ℝ) = 0 ∨
          Real.sqrt ((sumSquares v2 : ℚ) : ℝ) = 0 := by
        rcases h with h | h
        · left; rw [h]; simp
        · right; rw [h]; simp
      rw [if_pos hzero]

/-- C5 witness: concrete mismatched-length and zero-magnitude inputs. -/
theorem cosine_zero_witness :
    cosineSimilarity [1] [1, 2] = 0 ∧ cosineSimilarity [0, 0] [3, 4] = 0 :=
  ⟨cosine_zero_on_mismatch_or_zero_magnitude.1 [1] [1, 2] (by decide),
   cosine_zero_on_mismatch_or_zero_magnitude.2 [0, 0] [3, 4]
     (Or.inl (by norm_num [sumSquares]))⟩

/-- C9: for equal-length vectors of non-zero magnitude the computed cosine
similarity lies in `[-1, 1]`, and a non-zero vector compared with itself
yields exactly `1` (the float computation idealised as exact real
arithmetic). -/
theorem cosine_bounds_and_self_one :
    (∀ vec1 vec2 : List ℚ, vec1.length = vec2.length → sumSquares vec1 ≠ 0 →
      sumSquares vec2 ≠ 0 →
      -1 ≤ cosineSimilarity vec1 vec2 ∧ cosineSimilarity vec1 vec2 ≤ 1) ∧
    (∀ vec : List ℚ, sumSquares vec ≠ 0 → cosineSimilarity vec vec = 1) := by
  constructor
  · intro v1 v2 hlen h1 h2
    have hs1 : 0 < sumSquares v1 := lt_of_le_of_ne (sumSquares_nonneg v1) (Ne.symm h1)
    have hs2 : 0 < sumSquares v2 := lt_of_le_of_ne (sumSquares_nonneg v2) (Ne.symm h2)
    have hr1 : (0 : ℝ) < ((sumSquares v1 : ℚ) : ℝ) := by exact_mod_cast hs1
    have hr2 : (0 : ℝ) < ((sumSquares v2 : ℚ) : ℝ) := by exact_mod_cast hs2
    have hm1 : 0 < Real.sqrt ((sumSquares v1 : ℚ) : ℝ) := Real.sqrt_pos.mpr hr1
    have hm2 : 0 < Real.sqrt ((sumSquares v2 : ℚ) : ℝ) := Real.sqrt_pos.mpr hr2
    have habs : |((dotProduct v1 v2 : ℚ) : ℝ)| ≤
        Real.sqrt ((sumSquares v1 : ℚ) : ℝ) * Real.sqrt ((sumSquares v2 : ℚ) : ℝ) := by
      rw [← Real.sqrt_mul (le_of_lt hr1), ← Real.sqrt_sq_eq_abs]
      apply Real.sqrt_le_sqrt
      have hcs := dotProduct_sq_le v1 v2
      exact_mod_cast hcs
    unfold cosineSimilarity
    rw [if_neg (not_ne_iff.mpr hlen)]
    dsimp only
    rw [if_neg (not_or.mpr ⟨ne_of_gt hm1, ne_of_gt hm2⟩)]
    have hpos : 0 < Real.sqrt ((sumSquares v1 : ℚ) : ℝ) *
        Real.sqrt ((sumSquares v2 : ℚ) : ℝ) := mul_pos hm1 hm2
    have hq : |((dotProduct v1 v2 : ℚ) : ℝ) /
        (Real.sqrt ((sumSquares v1 : ℚ) : ℝ) * Real.sqrt ((sumSquares v2 : ℚ) : ℝ))| ≤ 1 := by
      rw [abs_div, abs_of_pos hpos]
      exact (div_le_one hpos).mpr habs
    exact abs_le.mp hq
  · intro v h
    have hs : 0 < sumSquares v := lt_of_le_of_ne (sumSquares_nonneg v) (Ne.symm h)
    have hr : (0 : ℝ) < ((sumSquares v : ℚ) : ℝ) := by exact_mod_cast hs
    have hm : 0 < Real.sqrt ((sumSquares v : ℚ) : ℝ) := Real.sqrt_pos.mpr hr
    unfold cosineSimilarity
    rw [if_neg (not_ne_iff.mpr rfl)]
    dsimp only
    rw [if_neg (not_or.mpr ⟨ne_of_gt hm, ne_of_gt hm⟩)]
    rw [dotProduct_self, Real.mul_self_sqrt (le_of_lt hr)]
    exact div_self (ne_of_gt hr)

/-- C9 witness: a concrete pair of non-zero vectors, and one self
comparison. -/
theorem cosine_bounds_and_self_one_witness :
    (-1 ≤ cosineSimilarity [2, 1] [1, 3] ∧ cosineSimilarity [2, 1] [1, 3] ≤ 1) ∧
      cosineSimilarity [3, 4] [3, 4] = 1 :=
  ⟨cosine_bounds_and_self_one.1 [2, 1] [1, 3] rfl (by norm_num [sumSquares])
     (by norm_num [sumSquares]),
   cosine_bounds_and_self_one.2 [3, 4] (by norm_num [sumSquares])⟩

/-- `List.filter` commutes with `List.orderedInsert` for a predicate that
selects one equivalence class of the sort key: the inserted element lands in
front of the selected elements of the tail. -/
theorem filter_orderedInsert {α : Type} (r : α → α → Prop) [DecidableRel r]
    (p : α → Bool) (hp : ∀ x y, p x = true → p y = true → r x y) (a : α)
    (t : List α) :
    (List.orderedInsert r a t).filter p =
      if p a then a :: t.filter p else t.filter p := by
  induction t with
  | nil => cases hpa : p a <;> simp [List.orderedInsert, hpa]
  | cons b t ih =>
    simp only [List.orderedInsert]
    by_cases hr : r a b
    · rw [if_pos hr]
      cases hpa : p a <;> simp [List.filter_cons, hpa]
    · rw [if_neg hr]
      cases hpb : p b with
      | false => cases hpa : p a <;> simp [List.filter_cons, hpb, hpa, ih]
      | true =>
        have hpa : p a = false := by
          cases hpa2 : p a
          · rfl
          · exact absurd (hp a b hpa2 hpb) hr
        simp [List.filter_cons, hpb, ih, hpa]

/-- Stability of `List.insertionSort`, stated through the classic filter
characterisation: elements sharing one sort key keep their original relative
order. -/
theorem filter_insertionSort {α : Type} (r : α → α → Prop) [DecidableRel r]
    (p : α → Bool) (hp : ∀ x y, p x = true → p y = true → r x y)
    (l : List α) : (List.insertionSort r l).filter p = l.filter p := by
  induction l with
  | nil => rfl
  | cons a l ih =>
    simp only [List.insertionSort]
    rw [filter_orderedInsert r p hp a _, ih]
    cases hpa : p a <;> simp [List.filter_cons, hpa]

open Classical in
/-- C4: with a resolvable reference (the `±5`-second query returns
`tv :: rest`), `find_similar_moments` returns the top 10 of the stably
descending-sorted candidate list: every returned moment lies at least
`window_size` away from the target (so for positive windows the reference
moment never appears in its own result), the candidate list is sorted by
descending similarity, ties keep their original scan order (filter
characterisation), and at most 10 moments are returned. -/
theorem find_similar_excludes_sorts_top10 (db : Store ℚ)
    (target_timestamp window_size : ℚ) (st : Option String)
    (tv : QueryResult ℚ) (rest : List (QueryResult ℚ))
    (href : queryByTimerange db (target_timestamp - 5)
      ((target_timestamp + 5 : ℚ) : WithTop ℚ) st = tv :: rest) :
    findSimilarMoments db target_timestamp window_size st =
        Except.ok ((sortSimilarities
          (rawSimilarities db target_timestamp window_size st tv.vector)).take 10) ∧
      ((sortSimilarities
          (rawSimilarities db target_timestamp window_size st tv.vector)).take 10).length ≤
        10 ∧
      (∀ x ∈ (sortSimilarities
          (rawSimilarities db target_timestamp window_size st tv.vector)).take 10,
        window_size ≤ |x.timestamp - target_timestamp|) ∧
      List.Sorted simGE (sortSimilarities
        (rawSimilarities db target_timestamp window_size st tv.vector)) ∧
      (∀ v : ℝ, (sortSimilarities
          (rawSimilarities db target_timestamp window_size st tv.vector)).filter
            (fun x => decide (x.similarity = v)) =
        (rawSimilarities db target_timestamp window_size st tv.vector).filter
          (fun x => decide (x.similarity = v))) := by
  refine ⟨?_, ?_, ?_, ?_, ?_⟩
  · unfold findSimilarMoments
    rw [href]
  · exact List.length_take_le 10 _
  · intro x hx
    have hx2 : x ∈ sortSimilarities
        (rawSimilarities db target_timestamp window_size st tv.vector) :=
      List.take_subset 10 _ hx
    have hx3 : x ∈ rawSimilarities db target_timestamp window_size st tv.vector := by
      unfold sortSimilarities at hx2
      exact (List.mem_insertionSort simGE).mp hx2
    unfold rawSimilarities at hx3
    rcases List.mem_filterMap.mp hx3 with ⟨v, _, hfv⟩
    by_cases hw : |v.timestamp - target_timestamp| < window_size
    · rw [if_pos hw] at hfv
      cases hfv
    · rw [if_neg hw] at hfv
      cases Option.some.inj hfv
      exact not_lt.mp hw
  · unfold sortSimilarities
    exact List.sorted_insertionSort simGE _
  · intro v
    unfold sortSimilarities
    refine filter_insertionSort simGE _ ?_ _
    intro x y hx hy
    have hx2 : x.similarity = v := of_decide_eq_true hx
    have hy2 : y.similarity = v := of_decide_eq_true hy
    unfold simGE
    rw [hx2, hy2]

/-- C4 witness: one audio record at timestamp 10 resolves as its own
reference; the result is the (empty, after exclusion) top-10 list. -/
theorem find_similar_excludes_sorts_top10_witness :
    findSimilarMoments (storeAudioVectors (emptyStore : Store ℚ)
        [⟨10, [1, 0], "m"⟩] "f.wav") 10 30 none =
      Except.ok ((sortSimilarities (rawSimilarities
        (storeAudioVectors (emptyStore : Store ℚ) [⟨10, [1, 0], "m"⟩] "f.wav")
        10 30 none [1, 0])).take 10) :=
  (find_similar_excludes_sorts_top10
    (storeAudioVectors (emptyStore : Store ℚ) [⟨10, [1, 0], "m"⟩] "f.wav")
    10 30 none ⟨1, "audio", "f.wav", 10, [1, 0], "m"⟩ [] (by
      norm_num [queryByTimerange, storeAudioVectors, insertRow, emptyStore, truthyStr,
        toQueryResult, List.filter, List.insertionSort, List.orderedInsert]
      exact fun h => absurd h (by decide))).1

end VectorVault
